import Mathlib

/-!
Verification development for the RISC-V UDB → LLVM TableGen converter
(`convert.py`).  The converter's core is embedded shallowly: YAML documents
become the inductive `YVal`, Python dicts become association lists with
Python's insertion-order update semantics, and each Python function of the
pipeline (`extract_encoding_info`, `get_instruction_format`,
`parse_assembly_operands`, `convert_instruction`, `convert_csr`,
`convert_extension`, `process_udb_file`, and the directory aggregation loop
of `main`) becomes a Lean function of the same name and structure.

Modelling conventions, noted once here:
* Python string operations are re-implemented over `List Char` so that every
  definition reduces in the kernel (`pyReplace`, `pySplit`, `pyStrip`,
  `pyLower`, `pyUpper`, `pyStartsWith`, `pyIsDigit`, `pyIntercalate`,
  `containsSub` for the `in` substring test).  They agree with the Python
  originals on the ASCII data the converter handles.
* Where the Python code would raise a `TypeError`/`AttributeError` on an
  ill-shaped dynamic value (for example a non-string `name`, a non-mapping
  `format`, a `$inherits` reference that is not a string, an `encoding`
  value that is not a mapping, or an operand string lacking `:$`), the
  embedding takes the branch that skips the value.  No theorem below
  quantifies over such crashing inputs; each claim's hypotheses pin the
  shapes the claim itself talks about.
* File IO, YAML deserialization and CLI handling are the spec's declared
  collaborator boundary; the directory loop is modelled over the list of
  already-decoded documents in their processing order.
-/

/-- Characters stripped by Python's default `str.strip`. -/
def isSpaceChar (c : Char) : Bool :=
  c == ' ' || c == '\t' || c == '\n' || c == '\r' || c == '\x0b' || c == '\x0c'

/-- Python `s.strip()` (ASCII whitespace). -/
def pyStrip (s : String) : String :=
  ⟨((s.toList.dropWhile isSpaceChar).reverse.dropWhile isSpaceChar).reverse⟩

/-- Python `s.lower()` (ASCII). -/
def pyLower (s : String) : String :=
  ⟨s.toList.map Char.toLower⟩

/-- Python `s.upper()` (ASCII). -/
def pyUpper (s : String) : String :=
  ⟨s.toList.map Char.toUpper⟩

/-- Python `s.startswith(pat)`. -/
def pyStartsWith (s pat : String) : Bool :=
  pat.toList.isPrefixOf s.toList

/-- Helper for Python's substring test `pat in s`. -/
def containsAux (pat : List Char) : List Char → Bool
  | [] => pat.isEmpty
  | c :: t => pat.isPrefixOf (c :: t) || containsAux pat t

/-- Python `pat in s` (substring containment). -/
def containsSub (s pat : String) : Bool :=
  containsAux pat.toList s.toList

/-- Python `s.isdigit()` for ASCII strings: nonempty and all digits. -/
def pyIsDigit (s : String) : Bool :=
  !s.toList.isEmpty && s.toList.all Char.isDigit

/-- Fuel-indexed worker for `pyReplace`; one character is consumed per step,
so `s.length` fuel is always enough for a nonempty pattern. -/
def replaceGo (pat rep : List Char) : Nat → List Char → List Char
  | 0, s => s
  | _ + 1, [] => []
  | n + 1, c :: t =>
    if pat.isPrefixOf (c :: t) then
      rep ++ replaceGo pat rep n (List.drop (pat.length - 1) t)
    else
      c :: replaceGo pat rep n t

/-- Python `s.replace(pat, rep)`: non-overlapping, left to right.  The
converter never calls `replace` with an empty pattern. -/
def pyReplace (s pat rep : String) : String :=
  if pat.toList.isEmpty then s
  else ⟨replaceGo pat.toList rep.toList s.toList.length s.toList⟩

/-- Fuel-indexed worker for `pySplit` (nonempty separator). -/
def pySplitGo (pat : List Char) : Nat → List Char → List Char → List (List Char)
  | 0, s, cur => [cur ++ s]
  | _ + 1, [], cur => [cur]
  | n + 1, c :: t, cur =>
    if pat.isPrefixOf (c :: t) then
      cur :: pySplitGo pat n (List.drop (pat.length - 1) t) []
    else
      pySplitGo pat n t (cur ++ [c])

/-- Python `s.split(pat)` for a nonempty separator `pat`. -/
def pySplit (s pat : String) : List String :=
  (pySplitGo pat.toList s.toList.length s.toList []).map (fun l => ⟨l⟩)

/-- Python `sep.join(parts)`. -/
def pyIntercalate (sep : String) : List String → String
  | [] => ""
  | [x] => x
  | x :: xs => x ++ sep ++ pyIntercalate sep xs

/-- Python `str.capitalize()`: first character upper-cased, rest lower-cased. -/
def pyCapitalize (s : String) : String :=
  ⟨(s.toList.take 1).map Char.toUpper ++ (s.toList.drop 1).map Char.toLower⟩

/-- Dynamically typed YAML values handed to the converter by the loader:
strings, integers, sequences and mappings. -/
inductive YVal where
  | s (v : String)
  | i (v : Int)
  | arr (v : List YVal)
  | map (v : List (String × YVal))

/-- A decoded YAML mapping: ordered key/value pairs with unique keys,
as produced by `yaml.safe_load`. -/
abbrev YDict := List (String × YVal)

/-- Python `d[k]` / `d.get(k)`: first binding of `k`. -/
def dictGet : YDict → String → Option YVal
  | [], _ => none
  | (k0, v0) :: rest, k => if k0 = k then some v0 else dictGet rest k

/-- Python `d[k] = v`: replace the binding in place when the key exists,
otherwise append it at the end (insertion order). -/
def dictSet : YDict → String → YVal → YDict
  | [], k, v => [(k, v)]
  | (k0, v0) :: rest, k, v =>
    if k0 = k then (k0, v) :: rest else (k0, v0) :: dictSet rest k v

/-- Python `d.update(u)`: set every binding of `u` in order. -/
def dictUpdate (d u : YDict) : YDict :=
  u.foldl (fun acc p => dictSet acc p.1 p.2) d

mutual

/-- Python `repr` for YAML values, as used by f-string rendering of
non-string values (strings quoted, containers element-wise). -/
def pyRepr : YVal → String
  | .s v => "'" ++ v ++ "'"
  | .i v => toString v
  | .arr v => "[" ++ pyReprList v ++ "]"
  | .map v => "\x7b" ++ pyReprPairs v ++ "\x7d"

/-- Comma-joined `pyRepr` of a sequence's elements. -/
def pyReprList : List YVal → String
  | [] => ""
  | [x] => pyRepr x
  | x :: xs => pyRepr x ++ ", " ++ pyReprList xs

/-- Comma-joined `pyRepr` of a mapping's items. -/
def pyReprPairs : List (String × YVal) → String
  | [] => ""
  | [(k, v)] => "'" ++ k ++ "': " ++ pyRepr v
  | (k, v) :: xs => "'" ++ k ++ "': " ++ pyRepr v ++ ", " ++ pyReprPairs xs

end

/-- Python `str(v)` as it appears inside f-strings. -/
def pyStr : YVal → String
  | .s v => v
  | v => pyRepr v

/-- Python truthiness of a YAML value. -/
def truthy : YVal → Bool
  | .s v => !v.toList.isEmpty
  | .i v => v != 0
  | .arr v => !v.isEmpty
  | .map v => !v.isEmpty

/-- Python `d.get(k, default)` restricted to string fields; for a present
non-string value the source would crash on the subsequent string method, so
the embedding substitutes the default (see the file comment). -/
def getStrD (m : YDict) (k : String) (d : String) : String :=
  match dictGet m k with
  | some (.s v) => v
  | _ => d

/-! ## Encoding extraction (`extract_encoding_info`, source lines 12–33) -/

/-- The for-loop of `extract_encoding_info` over the known opcode field
names: a field present as a mapping with a `value` key contributes that
value, a field present as a string contributes the string, anything else is
skipped. -/
def extractOpcodeFields (opcodes : YDict) : List String → YDict → YDict
  | [], enc => enc
  | field :: fields, enc =>
    let enc' :=
      match dictGet opcodes field with
      | some (.map fv) =>
        match dictGet fv "value" with
        | some v => dictSet enc field v
        | none => enc
      | some (.s sv) => dictSet enc field (.s sv)
      | _ => enc
    extractOpcodeFields opcodes fields enc'

/-- `extract_encoding_info(format_data)`: opcode fields from an `opcodes`
sub-mapping, then `match` and `variables` copied verbatim from an
`encoding` sub-mapping. -/
def extract_encoding_info (format_data : YDict) : YDict :=
  let encoding : YDict := []
  let encoding :=
    match dictGet format_data "opcodes" with
    | some (.map opcodes) =>
      extractOpcodeFields opcodes ["funct7", "funct3", "funct6", "funct2", "opcode"] encoding
    | _ => encoding
  match dictGet format_data "encoding" with
  | some (.map enc_data) =>
    let encoding :=
      match dictGet enc_data "match" with
      | some m => dictSet encoding "match" m
      | none => encoding
    match dictGet enc_data "variables" with
    | some vars => dictSet encoding "variables" vars
    | none => encoding
  | _ => encoding

/-! ## Format classification (`get_instruction_format`, source lines 35–66) -/

/-- `udb_data.get('format', {})`, restricted to mapping-valued `format`. -/
def formatData (udb_data : YDict) : YDict :=
  match dictGet udb_data "format" with
  | some (.map m) => m
  | _ => []

/-- `format_data['$inherits'][0] if isinstance(..., list) else
format_data['$inherits']`; `none` models the shapes on which the source
would raise (empty list, non-string reference). -/
def inheritPath : YVal → Option String
  | .s p => some p
  | .arr (.s p :: _) => some p
  | _ => none

/-- The if/elif chain scanning an inheritance reference for the family
markers, in source order `R, I, S, B, U, J`, each via `/X/` or `X-`. -/
def scanInherits (inherit_path : String) : Option String :=
  if (containsSub inherit_path "/R/" || containsSub inherit_path "R-") = true then some "R"
  else if (containsSub inherit_path "/I/" || containsSub inherit_path "I-") = true then some "I"
  else if (containsSub inherit_path "/S/" || containsSub inherit_path "S-") = true then some "S"
  else if (containsSub inherit_path "/B/" || containsSub inherit_path "B-") = true then some "B"
  else if (containsSub inherit_path "/U/" || containsSub inherit_path "U-") = true then some "U"
  else if (containsSub inherit_path "/J/" || containsSub inherit_path "J-") = true then some "J"
  else none

/-- `get_instruction_format(udb_data)`: inheritance markers first, then the
16-significant-character compressed check on a top-level `encoding.match`,
then the vector heuristic on the assembly string, defaulting to `R`. -/
def get_instruction_format (udb_data : YDict) : String :=
  let fromInherits : Option String :=
    match dictGet (formatData udb_data) "$inherits" with
    | some v =>
      match inheritPath v with
      | some p => scanInherits p
      | none => none
    | none => none
  match fromInherits with
  | some fmt => fmt
  | none =>
    let fromMatch : Option String :=
      match dictGet udb_data "encoding" with
      | some (.map enc) =>
        match dictGet enc "match" with
        | some (.s mp) =>
          if (pyReplace mp "-" "").toList.length = 16 then some "C" else none
        | _ => none
      | _ => none
    match fromMatch with
    | some fmt => fmt
    | none =>
      let assembly := getStrD udb_data "assembly" ""
      if (containsSub assembly "vm"
          && (containsSub assembly "vs1" || containsSub assembly "vs2")) = true then "V"
      else "R"

/-! ## Operand parsing (`parse_assembly_operands`, source lines 68–108) -/

/-- The body of the per-token loop of `parse_assembly_operands`: the vector
rule (family `V`, token starting `v`), then the general-register rule, then
the immediate rule, else drop the token.  The accumulator is the
`(output, inp)` pair of operand lists. -/
def classifyToken (inst_for : String) (acc : List String × List String)
    (part : String) : List String × List String :=
  let output := acc.1
  let inp := acc.2
  if pyStartsWith part "v" = true ∧ inst_for = "V" then
    if part = "vd" then (output ++ ["VR:$vd"], inp)
    else if pyStartsWith part "vs" = true then (output, inp ++ ["VR:$" ++ part])
    else if part = "vm" then (output, inp ++ ["VMaskOp:$vm"])
    else (output, inp)
  else if pyStartsWith part "x" = true ∨ part ∈ ["rd", "rs1", "rs2", "xs1", "xd"] then
    if part ∈ ["xd", "rd"] then (output ++ ["GPR:$rd"], inp)
    else if part ∈ ["xs1", "rs1"] then (output, inp ++ ["GPR:$rs1"])
    else if part ∈ ["xs2", "rs2"] then (output, inp ++ ["GPR:$rs2"])
    else (output, inp ++ ["GPR:$" ++ part])
  else if containsSub (pyLower part) "imm" = true ∨ pyIsDigit part = true then
    if inst_for = "I" then (output, inp ++ ["simm12:$imm"])
    else if inst_for = "S" then (output, inp ++ ["simm12:$imm"])
    else if inst_for = "B" then (output, inp ++ ["simm13_lsb0:$imm"])
    else if inst_for = "U" then (output, inp ++ ["uimm20:$imm"])
    else if inst_for = "J" then (output, inp ++ ["simm21_lsb0:$imm"])
    else (output, inp ++ ["simm12:$imm"])
  else (output, inp)

/-- `parse_assembly_operands(assembly_str, inst_for)`: empty string parses
to two empty lists, otherwise the comma-split, stripped tokens are
classified left to right. -/
def parse_assembly_operands (assembly_str : String) (inst_for : String) :
    List String × List String :=
  if assembly_str = "" then ([], [])
  else ((pySplit assembly_str ",").map pyStrip).foldl (classifyToken inst_for) ([], [])

/-! ## Instruction conversion (`convert_instruction`, source lines 110–181) -/

/-- The default-operand fallback of `convert_instruction` (lines 126–135):
when both parsed lists are empty, substitute the fixed per-family shape. -/
def applyFallback (inst_for : String) (oi : List String × List String) :
    List String × List String :=
  let output := oi.1
  let inp := oi.2
  if output = [] ∧ inp = [] then
    let output := if inst_for ∈ ["R", "I", "U", "J"] then ["GPR:$rd"] else output
    if inst_for = "R" then (output, ["GPR:$rs1", "GPR:$rs2"])
    else if inst_for = "I" then (output, ["GPR:$rs1", "simm12:$imm"])
    else if inst_for ∈ ["S", "B"] then ([], ["GPR:$rs1", "GPR:$rs2", "simm12:$imm"])
    else (output, inp)
  else (output, inp)

/-- The operand lists `convert_instruction` renders: the parse of the
record's assembly string under its classified family, with the fallback
applied. -/
def instOperands (udb_data : YDict) : List String × List String :=
  applyFallback (get_instruction_format udb_data)
    (parse_assembly_operands (getStrD udb_data "assembly" "") (get_instruction_format udb_data))

/-- The merged encoding of `convert_instruction` (lines 119–122): fields
extracted from `format`, updated with the fields extracted from the
top-level `encoding` when that key is present. -/
def mergedEncoding (udb_data : YDict) : YDict :=
  let encoding := extract_encoding_info (formatData udb_data)
  match dictGet udb_data "encoding" with
  | some e => dictUpdate encoding (extract_encoding_info [("encoding", e)])
  | none => encoding

/-- `name.upper().replace('.', '_').replace('-', '_')`. -/
def tablegenName (name : String) : String :=
  pyReplace (pyReplace (pyUpper name) "." "_") "-" "_"

/-- The shared description normalization with the 100-character truncation
(used for instructions and CSRs). -/
def cleanDescription (description : String) : String :=
  let d := pyStrip (pyReplace (pyReplace description "\n" " ") "  " " ")
  if d.toList.length > 100 then ⟨d.toList.take 97⟩ ++ "..." else d

/-- The `// Variable ... at bits ...` comment lines for a `variables`
value; non-sequence values and non-mapping entries (on which the source
would raise) contribute nothing. -/
def variableLines (vars : YVal) : List String :=
  match vars with
  | .arr l =>
    l.foldl (fun cs var =>
      match var with
      | .map vm =>
        let varName := (dictGet vm "name").getD (.s "")
        let location := (dictGet vm "location").getD (.s "")
        if truthy varName = true ∧ truthy location = true then
          cs ++ ["  // Variable " ++ pyStr varName ++ " at bits " ++ pyStr location]
        else cs
      | _ => cs) []
  | _ => []

/-- The constraint lines of `convert_instruction` (lines 147–164): the
quoted match pattern, the `0b`-string opcode fields with capitalized names,
and the variable comments. -/
def constraintLines (encoding : YDict) : List String :=
  let constraints : List String := []
  let constraints :=
    match dictGet encoding "match" with
    | some m => constraints ++ ["  let EncodingPattern = \"" ++ pyStr m ++ "\";"]
    | none => constraints
  let constraints :=
    ["opcode", "funct3", "funct7", "funct6", "funct2"].foldl (fun cs field =>
      match dictGet encoding field with
      | some (.s v) =>
        if pyStartsWith v "0b" = true then
          cs ++ ["  let " ++ pyCapitalize field ++ " = " ++ v ++ ";"]
        else cs
      | _ => cs) constraints
  match dictGet encoding "variables" with
  | some vars => constraints ++ variableLines vars
  | none => constraints

/-- `convert_instruction(udb_data)`: the rendered TableGen block. -/
def convert_instruction (udb_data : YDict) : String :=
  let name := getStrD udb_data "name" "unknown"
  let long_name := pyStr ((dictGet udb_data "long_name").getD (.s name))
  let description := pyStrip (getStrD udb_data "description" "")
  let inst_for := get_instruction_format udb_data
  let encoding := mergedEncoding udb_data
  let oi := instOperands udb_data
  let outputs_str := pyIntercalate ", " oi.1
  let inputs_str := pyIntercalate ", " oi.2
  let asm_parts := (oi.1 ++ oi.2).map (fun op => "$" ++ (pySplit op ":$").getD 1 "")
  let asm_format := pyIntercalate ", " asm_parts
  let constraints := constraintLines encoding
  let constraint_str := if constraints = [] then "" else "\n" ++ pyIntercalate "\n" constraints
  let desc_clean := cleanDescription description
  "\ndef " ++ tablegenName name ++ " : RISCVInst<\n    (outs " ++ outputs_str
    ++ "),\n    (ins " ++ inputs_str ++ "),\n    \"" ++ name ++ "\", \"" ++ asm_format
    ++ "\",\n    []> \x7b\n  // " ++ long_name ++ ": " ++ desc_clean
    ++ "\n  let Format = " ++ inst_for ++ "Format;" ++ constraint_str ++ "\n\x7d"

/-- `convert_csr(udb_data)`: the rendered register definition. -/
def convert_csr (udb_data : YDict) : String :=
  let name := getStrD udb_data "name" "unknown"
  let long_name := pyStr ((dictGet udb_data "long_name").getD (.s name))
  let address := (dictGet udb_data "address").getD (.s "0x000")
  let description := pyStrip (getStrD udb_data "description" "")
  let desc_clean := cleanDescription description
  "\ndef " ++ tablegenName name ++ " : RISCVReg<" ++ pyStr address ++ ", \"" ++ name
    ++ "\"> \x7b\n  // " ++ long_name ++ ": " ++ desc_clean ++ "\n\x7d"

/-- `convert_extension(udb_data)`: the rendered banner comment (description
normalized but never truncated). -/
def convert_extension (udb_data : YDict) : String :=
  let name := getStrD udb_data "name" "unknown"
  let long_name := pyStr ((dictGet udb_data "long_name").getD (.s name))
  let description := pyStrip (getStrD udb_data "description" "")
  let desc_clean := pyStrip (pyReplace (pyReplace description "\n" " ") "  " " ")
  "\n//===----------------------------------------------------------------------===//\n// Extension: "
    ++ name ++ " - " ++ long_name ++ "\n// " ++ desc_clean
    ++ "\n//===----------------------------------------------------------------------===//\n"

/-! ## Per-document dispatch and the directory loop (source lines 216–314) -/

/-- `process_udb_file` after the loader boundary: the decoded document
(`none` for an empty document) is validated and dispatched on its `kind`;
`Except.error` carries the diagnostic the source prints before skipping. -/
def process_udb_file (input_file : String) (udb_data : Option YVal) :
    Except String String :=
  match udb_data with
  | some (.map (p :: rest)) =>
    let m := p :: rest
    match (dictGet m "kind").getD (.s "unknown") with
    | .s "instruction" => .ok (convert_instruction m)
    | .s "csr" => .ok (convert_csr m)
    | .s "extension" => .ok (convert_extension m)
    | kind => .error ("Skipping " ++ input_file ++ ": unknown kind '" ++ pyStr kind ++ "'")
  | _ => .error ("Skipping " ++ input_file ++ ": invalid format")

/-- The fixed preamble written before any rendered block. -/
def generate_tablegen_header : String :=
  "//===-- Generated from RISC-V UDB --------*- tablegen -*-===//\n"
    ++ "// Auto-generated from RISC-V Unified Database\n"
    ++ "//===----------------------------------------------------------------------===//\n\n"
    ++ "include \"RISCVInstrFormats.td\"\n\n// Register Classes\n"
    ++ "def GPR : RegisterClass<\"RISCV\", [i32], 32, (add\n  (sequence \"X%u\", 0, 31)\n)>;\n\n"
    ++ "def VR : RegisterClass<\"RISCV\", [v64i1, v128i1, v256i1, v512i1, v1024i1], 32, (add\n"
    ++ "  (sequence \"V%u\", 0, 31)\n)>;\n\n// Operand Types\n"
    ++ "def simm12 : Operand<i32>;\ndef simm13_lsb0 : Operand<i32>;\n"
    ++ "def simm21_lsb0 : Operand<i32>;\ndef uimm20 : Operand<i32>;\n"
    ++ "def VMaskOp : Operand<i32>;\n\n"
    ++ "//===----------------------------------------------------------------------===//\n"
    ++ "// Generated Content\n"
    ++ "//===----------------------------------------------------------------------===//\n"

/-- One iteration of the directory loop of `main`: a rendered document
appends its origin marker and its block to `all_content`, a skipped one
appends nothing. -/
def dirStep (all : List String) (f : String × Option YVal) : List String :=
  match process_udb_file f.1 f.2 with
  | .ok content => all ++ ["// From " ++ f.1, content]
  | .error _ => all

/-- The `all_content` list built by the directory loop over the decoded
documents (already in sorted filename order at the loader boundary). -/
def dirAllContent (files : List (String × Option YVal)) : List String :=
  files.foldl dirStep []

/-- One iteration of the directory loop, diagnostics side. -/
def diagStep (ds : List String) (f : String × Option YVal) : List String :=
  match process_udb_file f.1 f.2 with
  | .ok _ => ds
  | .error e => ds ++ [e]

/-- The diagnostics printed by the directory loop, in order. -/
def dirDiagnostics (files : List (String × Option YVal)) : List String :=
  files.foldl diagStep []

/-- The aggregated artifact of directory mode: header plus every
`all_content` entry followed by a newline, or nothing when `all_content`
is empty. -/
def dirArtifact (files : List (String × Option YVal)) : Option String :=
  let all := dirAllContent files
  if all = [] then none
  else some (generate_tablegen_header ++ String.join (all.map (fun c => c ++ "\n")))

/-- The item count reported by directory mode: `len(all_content)//2`. -/
def dirReportedCount (files : List (String × Option YVal)) : Nat :=
  (dirAllContent files).length / 2

/-! ## Claim-side characterizations -/

/-- A record has no family-indicating inheritance marker: either `format`
carries no `$inherits` key, or the (well-shaped) inheritance reference
contains none of the twelve marker substrings. -/
def inheritsMarkerFree (udb_data : YDict) : Bool :=
  match dictGet (formatData udb_data) "$inherits" with
  | none => true
  | some v =>
    match inheritPath v with
    | some p => (scanInherits p).isNone
    | none => false

/-- The family markers found in an inheritance reference, listed in the
spec's fixed order `R, I, S, B, U, J`, each checked via the path segment
`/X/` or the surface form `X-`. -/
def familyMarkers (p : String) : List String :=
  ["R", "I", "S", "B", "U", "J"].filter
    (fun f => containsSub p ("/" ++ f ++ "/") || containsSub p (f ++ "-"))

/-- The spec's per-field extraction rule for a known opcode field: the
`value` entry of a mapping, a string taken as-is, nothing otherwise. -/
def opcodeFieldRule (opcodes : YDict) (field : String) : Option YVal :=
  match dictGet opcodes field with
  | some (.map fv) => dictGet fv "value"
  | some (.s sv) => some (.s sv)
  | _ => none

/-- The spec's immediate-type table: `I`/`S` the 12-bit signed immediate,
`B` the 13-bit signed immediate with implicit zero low bit, `U` the 20-bit
unsigned immediate, `J` the 21-bit signed immediate with implicit zero low
bit, every other family the 12-bit signed default. -/
def immTypeSpec (inst_for : String) : String :=
  if inst_for = "I" ∨ inst_for = "S" then "simm12:$imm"
  else if inst_for = "B" then "simm13_lsb0:$imm"
  else if inst_for = "U" then "uimm20:$imm"
  else if inst_for = "J" then "simm21_lsb0:$imm"
  else "simm12:$imm"

/-- The spec's fixed-by-family default operand shapes. -/
def fallbackShape (inst_for : String) : List String × List String :=
  if inst_for = "R" then (["GPR:$rd"], ["GPR:$rs1", "GPR:$rs2"])
  else if inst_for = "I" then (["GPR:$rd"], ["GPR:$rs1", "simm12:$imm"])
  else if inst_for = "U" ∨ inst_for = "J" then (["GPR:$rd"], [])
  else if inst_for = "S" ∨ inst_for = "B" then ([], ["GPR:$rs1", "GPR:$rs2", "simm12:$imm"])
  else ([], [])

/-- The records of a directory run that render successfully, with their
origin file names, in processing order. -/
def renderedBlocks (files : List (String × Option YVal)) : List (String × String) :=
  files.filterMap (fun f =>
    match process_udb_file f.1 f.2 with
    | .ok c => some (f.1, c)
    | .error _ => none)

/-- The two artifact lines a rendered record contributes: its origin-marker
comment and its block. -/
def blockLines (p : String × String) : List String :=
  ["// From " ++ p.1, p.2]

/-! ## Dictionary lemmas -/

theorem dictGet_dictSet (d : YDict) (k : String) (v : YVal) (k' : String) :
    dictGet (dictSet d k v) k' = if k' = k then some v else dictGet d k' := by
  induction d with
  | nil =>
    simp only [dictSet, dictGet]
    by_cases h : k' = k
    · simp [h]
    · simp [h, Ne.symm h]
  | cons p rest ih =>
    obtain ⟨k0, v0⟩ := p
    simp only [dictSet]
    by_cases h0 : k0 = k
    · subst h0
      simp only [if_pos rfl, dictGet]
      by_cases h : k' = k0
      · simp [h]
      · simp [h, Ne.symm h]
    · simp only [if_neg h0, dictGet, ih]
      by_cases h : k' = k
      · subst h
        have h0' : ¬ k0 = k' := h0
        simp [h0']
      · by_cases h2 : k0 = k'
        · simp [h2, h]
        · simp [h2, h]

theorem dictGet_dictSet_same (d : YDict) (k : String) (v : YVal) :
    dictGet (dictSet d k v) k = some v := by
  simp [dictGet_dictSet]

theorem dictGet_dictSet_ne (d : YDict) (k : String) (v : YVal) (k' : String)
    (h : k' ≠ k) : dictGet (dictSet d k v) k' = dictGet d k' := by
  simp [dictGet_dictSet, h]

/-! ## Lemmas about the opcode-field loop -/

theorem extractOpcodeFields_cons (opcodes : YDict) (f : String)
    (fs : List String) (enc : YDict) :
    extractOpcodeFields opcodes (f :: fs) enc =
      extractOpcodeFields opcodes fs
        (match opcodeFieldRule opcodes f with
         | some v => dictSet enc f v
         | none => enc) := by
  simp only [extractOpcodeFields, opcodeFieldRule]
  cases dictGet opcodes f with
  | none => rfl
  | some v => cases v <;> rfl

theorem extractOpcodeFields_not_mem (opcodes : YDict) (fields : List String)
    (enc : YDict) (k : String) (h : k ∉ fields) :
    dictGet (extractOpcodeFields opcodes fields enc) k = dictGet enc k := by
  induction fields generalizing enc with
  | nil => rfl
  | cons f fs ih =>
    have hkf : k ≠ f := fun hh => h (hh ▸ List.mem_cons_self f fs)
    have hks : k ∉ fs := fun hh => h (List.mem_cons_of_mem f hh)
    rw [extractOpcodeFields_cons, ih _ hks]
    cases opcodeFieldRule opcodes f with
    | none => rfl
    | some v => exact dictGet_dictSet_ne _ _ _ _ hkf

theorem extractOpcodeFields_mem (opcodes : YDict) (fields : List String)
    (enc : YDict) (k : String) (hmem : k ∈ fields) (hnd : fields.Nodup) :
    dictGet (extractOpcodeFields opcodes fields enc) k =
      match opcodeFieldRule opcodes k with
      | some v => some v
      | none => dictGet enc k := by
  induction fields generalizing enc with
  | nil => cases hmem
  | cons f fs ih =>
    rcases List.mem_cons.mp hmem with hkf | hks
    · subst hkf
      have hnot : k ∉ fs := (List.nodup_cons.mp hnd).1
      rw [extractOpcodeFields_cons, extractOpcodeFields_not_mem _ _ _ _ hnot]
      cases opcodeFieldRule opcodes k with
      | none => rfl
      | some v => simp [dictGet_dictSet_same]
    · have hnd' : fs.Nodup := (List.nodup_cons.mp hnd).2
      have hkf : k ≠ f := fun hh => (List.nodup_cons.mp hnd).1 (hh ▸ hks)
      rw [extractOpcodeFields_cons, ih _ hks hnd']
      cases opcodeFieldRule opcodes f with
      | none => rfl
      | some v =>
        cases opcodeFieldRule opcodes k with
        | none => exact dictGet_dictSet_ne _ _ _ _ hkf
        | some v' => rfl

/-! ## The marker scan as a filter -/

theorem scanInherits_eq_head (p : String) :
    scanInherits p = (familyMarkers p).head? := by
  unfold scanInherits familyMarkers
  cases hR : (containsSub p "/R/" || containsSub p "R-") <;>
    cases hI : (containsSub p "/I/" || containsSub p "I-") <;>
      cases hS : (containsSub p "/S/" || containsSub p "S-") <;>
        cases hB : (containsSub p "/B/" || containsSub p "B-") <;>
          cases hU : (containsSub p "/U/" || containsSub p "U-") <;>
            cases hJ : (containsSub p "/J/" || containsSub p "J-") <;>
              simp [List.filter, hR, hI, hS, hB, hU, hJ]

/-! ## Lemmas about the directory loop -/

theorem dirAllContent_go (files : List (String × Option YVal)) (acc : List String) :
    files.foldl dirStep acc = acc ++ ((renderedBlocks files).map blockLines).flatten := by
  induction files generalizing acc with
  | nil => simp [renderedBlocks]
  | cons f fs ih =>
    simp only [List.foldl_cons, ih, renderedBlocks, List.filterMap_cons]
    cases hf : process_udb_file f.1 f.2 with
    | ok c => simp [dirStep, hf, blockLines]
    | error e => simp [dirStep, hf]

theorem dirAllContent_eq (files : List (String × Option YVal)) :
    dirAllContent files = ((renderedBlocks files).map blockLines).flatten := by
  simpa using dirAllContent_go files []

theorem dirDiagnostics_go (files : List (String × Option YVal)) (acc : List String) :
    files.foldl diagStep acc =
      acc ++ files.filterMap (fun f =>
        match process_udb_file f.1 f.2 with
        | .ok _ => none
        | .error e => some e) := by
  induction files generalizing acc with
  | nil => simp
  | cons f fs ih =>
    simp only [List.foldl_cons, ih, List.filterMap_cons]
    cases hf : process_udb_file f.1 f.2 with
    | ok c => simp [diagStep, hf]
    | error e => simp [diagStep, hf]

theorem blockLines_flatten_length (l : List (String × String)) :
    ((l.map blockLines).flatten).length = 2 * l.length := by
  induction l with
  | nil => rfl
  | cons p ps ih => simp [blockLines, ih]; ring

/-! ## Claims -/

/-- C1: for every instruction record with no family-indicating inheritance
marker whose top-level `encoding` carries a `match` bit-pattern string, the
classifier strips the separator characters (`-`) from the pattern and
returns family `C` exactly when the remaining length is 16. -/
theorem claim_C1 (udb_data : YDict) (enc : YDict) (mp : String)
    (hfree : inheritsMarkerFree udb_data = true)
    (henc : dictGet udb_data "encoding" = some (.map enc))
    (hmp : dictGet enc "match" = some (.s mp)) :
    get_instruction_format udb_data = "C" ↔ (pyReplace mp "-" "").toList.length = 16 := by
  have hfi : (match dictGet (formatData udb_data) "$inherits" with
              | some v =>
                match inheritPath v with
                | some p => scanInherits p
                | none => none
              | none => none) = (none : Option String) := by
    unfold inheritsMarkerFree at hfree
    cases hv : dictGet (formatData udb_data) "$inherits" with
    | none => rfl
    | some v =>
      simp only [hv] at hfree ⊢
      cases hp : inheritPath v with
      | none => simp only [hp] at hfree; cases hfree
      | some p =>
        simp only [hp, Option.isNone_iff_eq_none] at hfree
        simp [hfree]
  have hVR : ∀ b : Bool, (if b = true then "V" else "R") ≠ "C" := by decide
  simp only [get_instruction_format, hfi, henc, hmp]
  by_cases h16 : (pyReplace mp "-" "").toList.length = 16
  · rw [if_pos h16]
    exact ⟨fun _ => h16, fun _ => rfl⟩
  · rw [if_neg h16]
    constructor
    · intro h
      exact absurd h (hVR _)
    · intro h
      exact absurd h h16

/-- C1 witness: a record whose `match` pattern has 17 characters of which
one is a separator classifies as `C`. -/
def exC1 : YDict := [("encoding", YVal.map [("match", YVal.s "110-1011000000010")])]

/-- C1 applied to `exC1`. -/
theorem claim_C1_witness :
    inheritsMarkerFree exC1 = true ∧
      (get_instruction_format exC1 = "C" ↔
        (pyReplace "110-1011000000010" "-" "").toList.length = 16) :=
  ⟨rfl, claim_C1 exC1 [("match", .s "110-1011000000010")] "110-1011000000010" rfl rfl rfl⟩

/-- C3 counterexample: the field `opcode` is present directly as the
(integer) literal `51` in the `opcodes` sub-mapping, yet extraction does not
take it as-is — it produces no binding at all, because the source only
accepts string literals. -/
theorem claim_C3_counterexample :
    dictGet [("opcode", YVal.i 51)] "opcode" = some (YVal.i 51) ∧
      dictGet (extract_encoding_info [("opcodes", YVal.map [("opcode", YVal.i 51)])])
        "opcode" = none :=
  ⟨rfl, rfl⟩

/-- C3 amended: for each known opcode-field name in the `opcodes`
sub-mapping, extraction takes the `value` entry when the field is a mapping
with a `value` key, takes the field's value as-is when it is present
directly as a string literal (values of any other shape, such as integer
literals, are skipped), and silently ignores unknown field names without
error. -/
theorem claim_C3_amended (opcodes : YDict) :
    (∀ k, k ∈ ["funct7", "funct3", "funct6", "funct2", "opcode"] →
      dictGet (extract_encoding_info [("opcodes", YVal.map opcodes)]) k =
        opcodeFieldRule opcodes k) ∧
    (∀ k, k ∉ ["funct7", "funct3", "funct6", "funct2", "opcode"] →
      dictGet (extract_encoding_info [("opcodes", YVal.map opcodes)]) k = none) := by
  have hred : extract_encoding_info [("opcodes", YVal.map opcodes)] =
      extractOpcodeFields opcodes ["funct7", "funct3", "funct6", "funct2", "opcode"] [] := rfl
  constructor
  · intro k hk
    rw [hred, extractOpcodeFields_mem _ _ _ _ hk (by decide)]
    cases opcodeFieldRule opcodes k with
    | none => rfl
    | some v => rfl
  · intro k hk
    rw [hred, extractOpcodeFields_not_mem _ _ _ _ hk]
    rfl

/-- C3 concrete opcodes sub-mapping for the witness. -/
def exC3 : YDict :=
  [("funct3", YVal.map [("value", YVal.s "0b000")]), ("opcode", YVal.s "0b0010011")]

/-- C3 amended applied to `exC3` at a known and at an unknown field name. -/
theorem claim_C3_witness :
    dictGet (extract_encoding_info [("opcodes", YVal.map exC3)]) "funct3" =
        opcodeFieldRule exC3 "funct3" ∧
      dictGet (extract_encoding_info [("opcodes", YVal.map exC3)]) "imm" = none :=
  ⟨(claim_C3_amended exC3).1 "funct3" (by decide),
    (claim_C3_amended exC3).2 "imm" (by decide)⟩

/-- C4: for every record whose `format.$inherits` is present with a
well-shaped reference (a string, or the first element of a list), the
classifier returns the first family of the fixed order `R, I, S, B, U, J`
whose `/X/` or `X-` marker occurs in the reference text. -/
theorem claim_C4 (udb_data : YDict) (v : YVal) (p fam : String)
    (hinh : dictGet (formatData udb_data) "$inherits" = some v)
    (hpath : inheritPath v = some p)
    (hfam : (familyMarkers p).head? = some fam) :
    get_instruction_format udb_data = fam := by
  have hscan : scanInherits p = some fam := by rw [scanInherits_eq_head, hfam]
  simp only [get_instruction_format, hinh, hpath, hscan]

/-- C4 witness: a record inheriting from an `R`-marked reference. -/
def exC4 : YDict :=
  [("format", YVal.map [("$inherits", YVal.arr [YVal.s "inst_subtype/R/R-x"])])]

/-- C4 applied to `exC4`: the only marker present is `R`. -/
theorem claim_C4_witness :
    (familyMarkers "inst_subtype/R/R-x").head? = some "R" ∧
      get_instruction_format exC4 = "R" :=
  ⟨rfl, claim_C4 exC4 (YVal.arr [YVal.s "inst_subtype/R/R-x"]) "inst_subtype/R/R-x" "R"
    rfl rfl rfl⟩

theorem dictGet_update_pair (base : YDict) (m vars : YVal) (k : String) :
    dictGet (dictUpdate base [("match", m), ("variables", vars)]) k =
      if k = "variables" then some vars
      else if k = "match" then some m
      else dictGet base k := by
  show dictGet (dictSet (dictSet base "match" m) "variables" vars) k = _
  rw [dictGet_dictSet, dictGet_dictSet]

theorem dictGet_update_single (base : YDict) (key : String) (val : YVal) (k : String) :
    dictGet (dictUpdate base [(key, val)]) k =
      if k = key then some val else dictGet base k := by
  show dictGet (dictSet base key val) k = _
  rw [dictGet_dictSet]

/-- C2: for every record carrying both a `format` sub-mapping and a
top-level `encoding` sub-mapping, the merged encoding takes the value of
every field derived from the top-level `encoding` (overwriting `format`),
and leaves every other field exactly as derived from `format`. -/
theorem claim_C2 (udb_data : YDict) (fmt enc : YDict)
    (_hfmt : dictGet udb_data "format" = some (.map fmt))
    (henc : dictGet udb_data "encoding" = some (.map enc)) :
    (∀ k v, dictGet (extract_encoding_info [("encoding", YVal.map enc)]) k = some v →
      dictGet (mergedEncoding udb_data) k = some v) ∧
    (∀ k, dictGet (extract_encoding_info [("encoding", YVal.map enc)]) k = none →
      dictGet (mergedEncoding udb_data) k =
        dictGet (extract_encoding_info (formatData udb_data)) k) := by
  have hm : mergedEncoding udb_data =
      dictUpdate (extract_encoding_info (formatData udb_data))
        (extract_encoding_info [("encoding", YVal.map enc)]) := by
    simp only [mergedEncoding, henc]
  have h0 : extract_encoding_info [("encoding", YVal.map enc)] =
      (match dictGet enc "variables" with
       | some vars =>
         dictSet (match dictGet enc "match" with
                  | some m => dictSet [] "match" m
                  | none => []) "variables" vars
       | none =>
         match dictGet enc "match" with
         | some m => dictSet [] "match" m
         | none => []) := rfl
  cases hma : dictGet enc "match" with
  | some m =>
    cases hva : dictGet enc "variables" with
    | some vars =>
      have hu : extract_encoding_info [("encoding", YVal.map enc)] =
          [("match", m), ("variables", vars)] := by rw [h0, hma, hva]; rfl
      constructor
      · intro k v hk
        rw [hm, hu, dictGet_update_pair]
        rw [hu] at hk
        by_cases h1 : k = "match"
        · subst h1
          simp [dictGet] at hk
          simp [hk]
        · by_cases h2 : k = "variables"
          · subst h2
            simp [dictGet] at hk
            simp [hk]
          · simp [dictGet, Ne.symm h1, Ne.symm h2] at hk
      · intro k hk
        rw [hm, hu, dictGet_update_pair]
        rw [hu] at hk
        by_cases h1 : k = "match"
        · subst h1; simp [dictGet] at hk
        · by_cases h2 : k = "variables"
          · subst h2; simp [dictGet] at hk
          · simp [h1, h2]
    | none =>
      have hu : extract_encoding_info [("encoding", YVal.map enc)] =
          [("match", m)] := by rw [h0, hma, hva]; rfl
      constructor
      · intro k v hk
        rw [hm, hu, dictGet_update_single]
        rw [hu] at hk
        by_cases h1 : k = "match"
        · subst h1
          simp [dictGet] at hk
          simp [hk]
        · simp [dictGet, Ne.symm h1] at hk
      · intro k hk
        rw [hm, hu, dictGet_update_single]
        rw [hu] at hk
        by_cases h1 : k = "match"
        · subst h1; simp [dictGet] at hk
        · simp [h1]
  | none =>
    cases hva : dictGet enc "variables" with
    | some vars =>
      have hu : extract_encoding_info [("encoding", YVal.map enc)] =
          [("variables", vars)] := by rw [h0, hma, hva]; rfl
      constructor
      · intro k v hk
        rw [hm, hu, dictGet_update_single]
        rw [hu] at hk
        by_cases h1 : k = "variables"
        · subst h1
          simp [dictGet] at hk
          simp [hk]
        · simp [dictGet, Ne.symm h1] at hk
      · intro k hk
        rw [hm, hu, dictGet_update_single]
        rw [hu] at hk
        by_cases h1 : k = "variables"
        · subst h1; simp [dictGet] at hk
        · simp [h1]
    | none =>
      have hu : extract_encoding_info [("encoding", YVal.map enc)] = [] := by
        rw [h0, hma, hva]
      constructor
      · intro k v hk
        rw [hu] at hk
        simp [dictGet] at hk
      · intro k hk
        rw [hm, hu]
        rfl

/-- C2 witness: the top-level `encoding.match` overwrites the `match`
derived from `format.encoding.match`. -/
def exC2 : YDict :=
  [("format", YVal.map [("encoding", YVal.map [("match", YVal.s "AAA")])]),
   ("encoding", YVal.map [("match", YVal.s "BBB")])]

/-- C2 applied to `exC2` at the overlapping field `match`. -/
theorem claim_C2_witness :
    dictGet (extract_encoding_info [("encoding", YVal.map [("match", YVal.s "BBB")])])
        "match" = some (YVal.s "BBB") ∧
      dictGet (mergedEncoding exC2) "match" = some (YVal.s "BBB") :=
  ⟨rfl, (claim_C2 exC2 [("encoding", YVal.map [("match", YVal.s "AAA")])]
    [("match", YVal.s "BBB")] rfl rfl).1 "match" (YVal.s "BBB") rfl⟩

/-- C5: an assembly token that matched neither the vector rule nor the
general-register rule and whose lowercase form contains `imm` (or is all
digits) contributes exactly one immediate input, typed by the spec's
per-family immediate table. -/
theorem claim_C5 (inst_for part : String) (output inp : List String)
    (hvec : ¬(pyStartsWith part "v" = true ∧ inst_for = "V"))
    (hgpr : ¬(pyStartsWith part "x" = true ∨ part ∈ ["rd", "rs1", "rs2", "xs1", "xd"]))
    (himm : containsSub (pyLower part) "imm" = true ∨ pyIsDigit part = true) :
    classifyToken inst_for (output, inp) part = (output, inp ++ [immTypeSpec inst_for]) := by
  simp only [classifyToken, if_neg hvec, if_neg hgpr, if_pos himm, immTypeSpec]
  by_cases hI : inst_for = "I"
  · simp [hI]
  · by_cases hS : inst_for = "S"
    · simp [hS]
    · by_cases hB : inst_for = "B"
      · simp [hB]
      · by_cases hU : inst_for = "U"
        · simp [hU]
        · by_cases hJ : inst_for = "J"
          · simp [hJ]
          · simp [hI, hS, hB, hU, hJ]

/-- C5 applied to the token `imm` under family `B`. -/
theorem claim_C5_witness :
    classifyToken "B" ([], []) "imm" = ([], [] ++ [immTypeSpec "B"]) :=
  claim_C5 "B" "imm" [] [] (by decide) (by decide) (Or.inl rfl)

/-- C6: when operand parsing yields two empty lists, a record classified in
one of the six base families renders the spec's fixed-by-family default
operand shape. -/
theorem claim_C6 (udb_data : YDict)
    (hparse : parse_assembly_operands (getStrD udb_data "assembly" "")
      (get_instruction_format udb_data) = ([], []))
    (hfam : get_instruction_format udb_data ∈ ["R", "I", "U", "J", "S", "B"]) :
    instOperands udb_data = fallbackShape (get_instruction_format udb_data) := by
  unfold instOperands
  rw [hparse]
  simp only [List.mem_cons, List.mem_singleton, List.not_mem_nil, or_false] at hfam
  rcases hfam with h | h | h | h | h | h <;> rw [h] <;> rfl

/-- C6 witness: a bare record classifies as `R` and parses no operands. -/
def exC6 : YDict := [("name", YVal.s "nop0")]

/-- C6 applied to `exC6`. -/
theorem claim_C6_witness :
    parse_assembly_operands (getStrD exC6 "assembly" "") (get_instruction_format exC6) =
        ([], []) ∧
      instOperands exC6 = fallbackShape (get_instruction_format exC6) :=
  ⟨rfl, claim_C6 exC6 rfl (by decide)⟩

/-- C9: a record classified `C` or `V` whose operand parsing yields two
empty lists gets no default operands — both rendered groups stay empty,
since the fallback defines shapes only for `R`, `I`, `U`, `J`, `S`, `B`. -/
theorem claim_C9 (udb_data : YDict)
    (hfam : get_instruction_format udb_data = "C" ∨ get_instruction_format udb_data = "V")
    (hparse : parse_assembly_operands (getStrD udb_data "assembly" "")
      (get_instruction_format udb_data) = ([], [])) :
    instOperands udb_data = ([], []) := by
  unfold instOperands
  rw [hparse]
  rcases hfam with h | h <;> rw [h] <;> rfl

/-- C9 witness: a compressed record with no assembly string. -/
def exC9 : YDict := [("encoding", YVal.map [("match", YVal.s "0000000000000000")])]

/-- C9 applied to `exC9`. -/
theorem claim_C9_witness :
    get_instruction_format exC9 = "C" ∧ instOperands exC9 = ([], []) :=
  ⟨rfl, claim_C9 exC9 (Or.inl rfl) rfl⟩

/-- C10: under family `V`, a token beginning with `v` that is neither `vd`
nor `vm` and does not begin with `vs` is consumed by the vector rule and
produces no operand at all — it is never tested against the
general-register or immediate rules. -/
theorem claim_C10 (part : String) (output inp : List String)
    (hv : pyStartsWith part "v" = true)
    (hvd : part ≠ "vd") (hvm : part ≠ "vm")
    (hvs : pyStartsWith part "vs" = false) :
    classifyToken "V" (output, inp) part = (output, inp) := by
  simp only [classifyToken]
  rw [if_pos ⟨hv, by trivial⟩, if_neg hvd, if_neg (by simp [hvs]), if_neg hvm]

/-- C10 applied to the token `vimm`, which contains `imm` yet yields no
immediate operand. -/
theorem claim_C10_witness : classifyToken "V" ([], []) "vimm" = ([], []) :=
  claim_C10 "vimm" [] [] rfl (by decide) (by decide) rfl

/-- C7: directory-mode processing renders exactly the successfully
converted records — the artifact lines are precisely an origin-marker
comment followed by the rendered block for each such record in order, the
reported count equals their number, every skipped record contributes
exactly its diagnostic, and no artifact is produced when nothing rendered. -/
theorem claim_C7 (files : List (String × Option YVal)) :
    dirAllContent files = ((renderedBlocks files).map blockLines).flatten ∧
    dirReportedCount files = (renderedBlocks files).length ∧
    dirDiagnostics files = files.filterMap (fun f =>
      match process_udb_file f.1 f.2 with
      | .ok _ => none
      | .error e => some e) ∧
    (dirArtifact files = none ↔ renderedBlocks files = []) := by
  refine ⟨dirAllContent_eq files, ?_, ?_, ?_⟩
  · unfold dirReportedCount
    rw [dirAllContent_eq, blockLines_flatten_length]
    omega
  · unfold dirDiagnostics
    simpa using dirDiagnostics_go files []
  · simp only [dirArtifact]
    constructor
    · intro h
      by_cases he : dirAllContent files = []
      · have hfl : ((renderedBlocks files).map blockLines).flatten = [] := by
          rw [← dirAllContent_eq]; exact he
        have hlen := blockLines_flatten_length (renderedBlocks files)
        rw [hfl] at hlen
        simp only [List.length_nil] at hlen
        have : (renderedBlocks files).length = 0 := by omega
        exact List.length_eq_zero.mp this
      · rw [if_neg he] at h
        cases h
    · intro h
      have he : dirAllContent files = [] := by
        rw [dirAllContent_eq, h]
        rfl
      rw [if_pos he]

/-- C8: the per-record pipeline is a pure function of the single record —
rendering is deterministic, and within a directory run the lines a record
contributes are exactly those of processing it alone, unaffected by the
records before or after it. -/
theorem claim_C8 (pre post : List (String × Option YVal)) (f : String × Option YVal) :
    (∀ udb_data : YDict, convert_instruction udb_data = convert_instruction udb_data) ∧
    dirAllContent (pre ++ f :: post) =
      dirAllContent pre
        ++ (match process_udb_file f.1 f.2 with
            | .ok c => ["// From " ++ f.1, c]
            | .error _ => [])
        ++ dirAllContent post := by
  refine ⟨fun _ => rfl, ?_⟩
  rw [dirAllContent_eq, dirAllContent_eq, dirAllContent_eq]
  unfold renderedBlocks
  rw [List.filterMap_append, List.filterMap_cons]
  cases hf : process_udb_file f.1 f.2 with
  | ok c => simp [blockLines]
  | error e => simp
